import Mathlib

/-!
Verification of the chess state tracker in `src/main.rs`.

The embedding below mirrors the Rust source: `ChessPiece` and `Colour` are the
two enums, `Square` is the 64-constructor enum in declaration order (so
`Square.index` is the Rust discriminant used by `self as usize`),
`GameState.new` builds the initial board, and `GameState.make_move` follows the
source control flow, returning the `Result` together with the (possibly
updated) state to model the `&mut self` receiver.
-/

deriving instance DecidableEq for Except

/-- The `Colour` enum of the source. -/
inductive Colour
  | White
  | Black
  deriving DecidableEq, Repr, Fintype

/-- The `ChessPiece` enum of the source: each piece variant carries a colour,
plus `Blank` for an empty square. -/
inductive ChessPiece
  | Pawn (c : Colour)
  | Knight (c : Colour)
  | Bishop (c : Colour)
  | Rook (c : Colour)
  | Queen (c : Colour)
  | King (c : Colour)
  | Blank
  deriving DecidableEq, Repr, Fintype

/-- The colour bound by the or-pattern `if let ChessPiece.Pawn(colour) | ... `
in `make_move`: every non-Blank piece yields its colour, `Blank` matches no arm. -/
def ChessPiece.colourOf : ChessPiece -> Option Colour
  | .Pawn c => some c
  | .Knight c => some c
  | .Bishop c => some c
  | .Rook c => some c
  | .Queen c => some c
  | .King c => some c
  | .Blank => none

/-- The `Square` enum of the source, 64 constructors in declaration order
A1..A8, B1..B8, ..., H1..H8. -/
inductive Square
  | A1 | A2 | A3 | A4 | A5 | A6 | A7 | A8
  | B1 | B2 | B3 | B4 | B5 | B6 | B7 | B8
  | C1 | C2 | C3 | C4 | C5 | C6 | C7 | C8
  | D1 | D2 | D3 | D4 | D5 | D6 | D7 | D8
  | E1 | E2 | E3 | E4 | E5 | E6 | E7 | E8
  | F1 | F2 | F3 | F4 | F5 | F6 | F7 | F8
  | G1 | G2 | G3 | G4 | G5 | G6 | G7 | G8
  | H1 | H2 | H3 | H4 | H5 | H6 | H7 | H8
  deriving DecidableEq, Repr, Fintype

/-- The discriminant of a `Square`, i.e. the value of `self as usize` in Rust:
constructors are numbered 0..63 in declaration order. -/
def Square.index : Square -> Nat
  | .A1 => 0
  | .A2 => 1
  | .A3 => 2
  | .A4 => 3
  | .A5 => 4
  | .A6 => 5
  | .A7 => 6
  | .A8 => 7
  | .B1 => 8
  | .B2 => 9
  | .B3 => 10
  | .B4 => 11
  | .B5 => 12
  | .B6 => 13
  | .B7 => 14
  | .B8 => 15
  | .C1 => 16
  | .C2 => 17
  | .C3 => 18
  | .C4 => 19
  | .C5 => 20
  | .C6 => 21
  | .C7 => 22
  | .C8 => 23
  | .D1 => 24
  | .D2 => 25
  | .D3 => 26
  | .D4 => 27
  | .D5 => 28
  | .D6 => 29
  | .D7 => 30
  | .D8 => 31
  | .E1 => 32
  | .E2 => 33
  | .E3 => 34
  | .E4 => 35
  | .E5 => 36
  | .E6 => 37
  | .E7 => 38
  | .E8 => 39
  | .F1 => 40
  | .F2 => 41
  | .F3 => 42
  | .F4 => 43
  | .F5 => 44
  | .F6 => 45
  | .F7 => 46
  | .F8 => 47
  | .G1 => 48
  | .G2 => 49
  | .G3 => 50
  | .G4 => 51
  | .G5 => 52
  | .G6 => 53
  | .G7 => 54
  | .G8 => 55
  | .H1 => 56
  | .H2 => 57
  | .H3 => 58
  | .H4 => 59
  | .H5 => 60
  | .H6 => 61
  | .H7 => 62
  | .H8 => 63

/-- `Square::to_row_col` from the source: `(index % 8, index / 8)`. -/
def Square.to_row_col (s : Square) : Nat × Nat :=
  (s.index % 8, s.index / 8)

theorem Square.index_lt (s : Square) : s.index < 64 := by
  cases s <;> decide

/-- The row component of `to_row_col`, packaged as `Fin 8` (Rust panics on an
out-of-range index; `index % 8 < 8` always, so indexing always succeeds). -/
def Square.rowF (s : Square) : Fin 8 :=
  ⟨s.index % 8, Nat.mod_lt _ (by decide)⟩

/-- The column component of `to_row_col`, packaged as `Fin 8`
(`index / 8 < 8` because `index < 64`). -/
def Square.colF (s : Square) : Fin 8 :=
  ⟨s.index / 8, by
    have h := s.index_lt
    omega⟩

theorem Square.to_row_col_eq (s : Square) :
    s.to_row_col = (s.rowF.val, s.colF.val) := rfl

/-- The algebraic name of a square, read off the constructor names of the
source enum (the strings matched by `from_str`). -/
def Square.name : Square -> String
  | .A1 => "A1"
  | .A2 => "A2"
  | .A3 => "A3"
  | .A4 => "A4"
  | .A5 => "A5"
  | .A6 => "A6"
  | .A7 => "A7"
  | .A8 => "A8"
  | .B1 => "B1"
  | .B2 => "B2"
  | .B3 => "B3"
  | .B4 => "B4"
  | .B5 => "B5"
  | .B6 => "B6"
  | .B7 => "B7"
  | .B8 => "B8"
  | .C1 => "C1"
  | .C2 => "C2"
  | .C3 => "C3"
  | .C4 => "C4"
  | .C5 => "C5"
  | .C6 => "C6"
  | .C7 => "C7"
  | .C8 => "C8"
  | .D1 => "D1"
  | .D2 => "D2"
  | .D3 => "D3"
  | .D4 => "D4"
  | .D5 => "D5"
  | .D6 => "D6"
  | .D7 => "D7"
  | .D8 => "D8"
  | .E1 => "E1"
  | .E2 => "E2"
  | .E3 => "E3"
  | .E4 => "E4"
  | .E5 => "E5"
  | .E6 => "E6"
  | .E7 => "E7"
  | .E8 => "E8"
  | .F1 => "F1"
  | .F2 => "F2"
  | .F3 => "F3"
  | .F4 => "F4"
  | .F5 => "F5"
  | .F6 => "F6"
  | .F7 => "F7"
  | .F8 => "F8"
  | .G1 => "G1"
  | .G2 => "G2"
  | .G3 => "G3"
  | .G4 => "G4"
  | .G5 => "G5"
  | .G6 => "G6"
  | .G7 => "G7"
  | .G8 => "G8"
  | .H1 => "H1"
  | .H2 => "H2"
  | .H3 => "H3"
  | .H4 => "H4"
  | .H5 => "H5"
  | .H6 => "H6"
  | .H7 => "H7"
  | .H8 => "H8"

/-- The `s.to_uppercase()` call in `from_str`, modelled as the per-character
ASCII uppercase map. Rust uppercases by full Unicode rules; the two maps agree
on every string whose image could be one of the 64 square names, because the
letters A-H and the digits 1-8 have no case preimages outside ASCII a-h. -/
def rustUppercase (s : String) : String :=
  String.mk (s.data.map Char.toUpper)

/-- `Square::from_str` from the source: uppercase the input and match it
against the 64 square names, otherwise report an invalid square (the error
message interpolates the original, un-uppercased input). The Rust `match` on
string literals is a sequence of equality tests on the uppercased input,
rendered here as the equivalent chain of conditionals. -/
def Square.from_str (s : String) : Except String Square :=
  if rustUppercase s = "A1" then Except.ok Square.A1
  else if rustUppercase s = "A2" then Except.ok Square.A2
  else if rustUppercase s = "A3" then Except.ok Square.A3
  else if rustUppercase s = "A4" then Except.ok Square.A4
  else if rustUppercase s = "A5" then Except.ok Square.A5
  else if rustUppercase s = "A6" then Except.ok Square.A6
  else if rustUppercase s = "A7" then Except.ok Square.A7
  else if rustUppercase s = "A8" then Except.ok Square.A8
  else if rustUppercase s = "B1" then Except.ok Square.B1
  else if rustUppercase s = "B2" then Except.ok Square.B2
  else if rustUppercase s = "B3" then Except.ok Square.B3
  else if rustUppercase s = "B4" then Except.ok Square.B4
  else if rustUppercase s = "B5" then Except.ok Square.B5
  else if rustUppercase s = "B6" then Except.ok Square.B6
  else if rustUppercase s = "B7" then Except.ok Square.B7
  else if rustUppercase s = "B8" then Except.ok Square.B8
  else if rustUppercase s = "C1" then Except.ok Square.C1
  else if rustUppercase s = "C2" then Except.ok Square.C2
  else if rustUppercase s = "C3" then Except.ok Square.C3
  else if rustUppercase s = "C4" then Except.ok Square.C4
  else if rustUppercase s = "C5" then Except.ok Square.C5
  else if rustUppercase s = "C6" then Except.ok Square.C6
  else if rustUppercase s = "C7" then Except.ok Square.C7
  else if rustUppercase s = "C8" then Except.ok Square.C8
  else if rustUppercase s = "D1" then Except.ok Square.D1
  else if rustUppercase s = "D2" then Except.ok Square.D2
  else if rustUppercase s = "D3" then Except.ok Square.D3
  else if rustUppercase s = "D4" then Except.ok Square.D4
  else if rustUppercase s = "D5" then Except.ok Square.D5
  else if rustUppercase s = "D6" then Except.ok Square.D6
  else if rustUppercase s = "D7" then Except.ok Square.D7
  else if rustUppercase s = "D8" then Except.ok Square.D8
  else if rustUppercase s = "E1" then Except.ok Square.E1
  else if rustUppercase s = "E2" then Except.ok Square.E2
  else if rustUppercase s = "E3" then Except.ok Square.E3
  else if rustUppercase s = "E4" then Except.ok Square.E4
  else if rustUppercase s = "E5" then Except.ok Square.E5
  else if rustUppercase s = "E6" then Except.ok Square.E6
  else if rustUppercase s = "E7" then Except.ok Square.E7
  else if rustUppercase s = "E8" then Except.ok Square.E8
  else if rustUppercase s = "F1" then Except.ok Square.F1
  else if rustUppercase s = "F2" then Except.ok Square.F2
  else if rustUppercase s = "F3" then Except.ok Square.F3
  else if rustUppercase s = "F4" then Except.ok Square.F4
  else if rustUppercase s = "F5" then Except.ok Square.F5
  else if rustUppercase s = "F6" then Except.ok Square.F6
  else if rustUppercase s = "F7" then Except.ok Square.F7
  else if rustUppercase s = "F8" then Except.ok Square.F8
  else if rustUppercase s = "G1" then Except.ok Square.G1
  else if rustUppercase s = "G2" then Except.ok Square.G2
  else if rustUppercase s = "G3" then Except.ok Square.G3
  else if rustUppercase s = "G4" then Except.ok Square.G4
  else if rustUppercase s = "G5" then Except.ok Square.G5
  else if rustUppercase s = "G6" then Except.ok Square.G6
  else if rustUppercase s = "G7" then Except.ok Square.G7
  else if rustUppercase s = "G8" then Except.ok Square.G8
  else if rustUppercase s = "H1" then Except.ok Square.H1
  else if rustUppercase s = "H2" then Except.ok Square.H2
  else if rustUppercase s = "H3" then Except.ok Square.H3
  else if rustUppercase s = "H4" then Except.ok Square.H4
  else if rustUppercase s = "H5" then Except.ok Square.H5
  else if rustUppercase s = "H6" then Except.ok Square.H6
  else if rustUppercase s = "H7" then Except.ok Square.H7
  else if rustUppercase s = "H8" then Except.ok Square.H8
  else Except.error ("Invalid square: " ++ s)

/-- `GameState` from the source: an 8x8 board (indexed `board[row][col]`) and
the player to move. -/
structure GameState where
  board : Fin 8 -> Fin 8 -> ChessPiece
  current_player : Colour

/-- The piece sitting on square `s`: `board[row][col]` with `(row, col)` from
`to_row_col`. -/
def GameState.pieceAt (st : GameState) (s : Square) : ChessPiece :=
  st.board s.rowF s.colF

/-- The back rank of the initial board: the first (resp. last) row of the
`INITIAL_BOARD` constant in `GameState::new`. -/
def backRank (colour : Colour) (c : Fin 8) : ChessPiece :=
  match c.val with
  | 0 => ChessPiece.Rook colour
  | 1 => ChessPiece.Knight colour
  | 2 => ChessPiece.Bishop colour
  | 3 => ChessPiece.Queen colour
  | 4 => ChessPiece.King colour
  | 5 => ChessPiece.Bishop colour
  | 6 => ChessPiece.Knight colour
  | _ => ChessPiece.Rook colour

/-- `GameState::new` from the source: the `INITIAL_BOARD` constant (row 0 the
white back rank, row 1 white pawns, rows 2-5 blank, row 6 black pawns, row 7
the black back rank) with White to move. -/
def GameState.new : GameState where
  board := fun r c =>
    match r.val with
    | 0 => backRank Colour.White c
    | 1 => ChessPiece.Pawn Colour.White
    | 6 => ChessPiece.Pawn Colour.Black
    | 7 => backRank Colour.Black c
    | _ => ChessPiece.Blank
  current_player := Colour.White

/-- The state after the mutation tail of `make_move`: the source writes
`board[to_row][to_col] = piece` and then `board[from_row][from_col] = Blank`
(so the source square ends `Blank` even when `from = to`), then toggles
`current_player` by the two-arm match of the source. -/
def GameState.moveResult (st : GameState) (src dst : Square) (piece : ChessPiece) :
    GameState where
  board := fun r c =>
    if r = src.rowF ∧ c = src.colF then ChessPiece.Blank
    else if r = dst.rowF ∧ c = dst.colF then piece
    else st.board r c
  current_player :=
    match st.current_player with
    | Colour.White => Colour.Black
    | Colour.Black => Colour.White

/-- `GameState::make_move` from the source. The Rust method mutates `self` and
returns `Result<(), String>`; here it returns the result paired with the state
after the call. Control flow follows the source: error if the source square is
`Blank`; error if the piece there does not belong to `current_player` (the
or-pattern `if let`, modelled by `colourOf`; its impossible non-matching arm
falls through to the move, as the Rust `if let` would); otherwise the state
becomes `moveResult` and the call returns `Ok(())`. -/
def GameState.make_move (st : GameState) (src dst : Square) :
    Except String Unit × GameState :=
  let piece := st.board src.rowF src.colF
  if piece = ChessPiece.Blank then
    (Except.error "No piece at the source square.", st)
  else
    match piece.colourOf with
    | some colour =>
      if colour ≠ st.current_player then
        (Except.error "It\x27s not your turn.", st)
      else
        (Except.ok (), st.moveResult src dst piece)
    | none => (Except.ok (), st.moveResult src dst piece)

theorem ChessPiece.colourOf_eq_none {p : ChessPiece} :
    p.colourOf = none ↔ p = ChessPiece.Blank := by
  cases p <;> simp [ChessPiece.colourOf]

theorem GameState.make_move_blank (st : GameState) (src dst : Square)
    (h : st.board src.rowF src.colF = ChessPiece.Blank) :
    st.make_move src dst = (Except.error "No piece at the source square.", st) := by
  simp [GameState.make_move, h]

theorem GameState.make_move_wrong_turn (st : GameState) (src dst : Square) (c : Colour)
    (h : (st.board src.rowF src.colF).colourOf = some c) (hne : c ≠ st.current_player) :
    st.make_move src dst = (Except.error "It\x27s not your turn.", st) := by
  have hb : ¬ st.board src.rowF src.colF = ChessPiece.Blank := by
    intro hb
    rw [hb] at h
    exact Option.noConfusion (ChessPiece.colourOf_eq_none.mpr rfl ▸ h)
  simp [GameState.make_move, hb, h, hne]

theorem GameState.make_move_own (st : GameState) (src dst : Square)
    (h : (st.board src.rowF src.colF).colourOf = some st.current_player) :
    st.make_move src dst =
      (Except.ok (), st.moveResult src dst (st.board src.rowF src.colF)) := by
  have hb : ¬ st.board src.rowF src.colF = ChessPiece.Blank := by
    intro hb
    rw [hb] at h
    exact Option.noConfusion h
  simp [GameState.make_move, hb, h]

theorem GameState.make_move_ok_colour (st : GameState) (src dst : Square)
    (h : (st.make_move src dst).1 = Except.ok ()) :
    (st.board src.rowF src.colF).colourOf = some st.current_player := by
  rcases hoc : (st.board src.rowF src.colF).colourOf with _ | c
  · rw [GameState.make_move_blank st src dst (ChessPiece.colourOf_eq_none.mp hoc)] at h
    exact absurd h (by simp)
  · by_cases hc : c = st.current_player
    · rw [hc]
    · rw [GameState.make_move_wrong_turn st src dst c hoc hc] at h
      exact absurd h (by simp)

theorem GameState.make_move_ok_state (st : GameState) (src dst : Square)
    (h : (st.make_move src dst).1 = Except.ok ()) :
    (st.make_move src dst).2 = st.moveResult src dst (st.board src.rowF src.colF) := by
  rw [GameState.make_move_own st src dst (st.make_move_ok_colour src dst h)]

set_option maxRecDepth 8000 in
theorem Square.eq_of_rowF_colF :
    ∀ s t : Square, s.rowF = t.rowF → s.colF = t.colF → s = t := by decide

/-- C1: `make_move` succeeds precisely when the source square holds a piece of
the current player; it fails with the no-piece message precisely when the
source square is `Blank`, and with the wrong-turn message precisely when the
piece there has the opponent\x27s colour; no other condition causes rejection. -/
theorem make_move_ok_iff_own_piece (st : GameState) (src dst : Square) :
    ((st.make_move src dst).1 = Except.ok () ↔
      st.pieceAt src ≠ ChessPiece.Blank ∧
        (st.pieceAt src).colourOf = some st.current_player)
    ∧ ((st.make_move src dst).1 = Except.error "No piece at the source square." ↔
      st.pieceAt src = ChessPiece.Blank)
    ∧ ((st.make_move src dst).1 = Except.error "It\x27s not your turn." ↔
      ∃ c, (st.pieceAt src).colourOf = some c ∧ c ≠ st.current_player) := by
  rcases hoc : (st.board src.rowF src.colF).colourOf with _ | c
  · have hb : st.pieceAt src = ChessPiece.Blank := ChessPiece.colourOf_eq_none.mp hoc
    rw [GameState.make_move_blank st src dst hb]
    refine ⟨by simp [hb], by simp [hb], ?_⟩
    simp only [GameState.pieceAt] at hb ⊢
    rw [hb]
    simp [ChessPiece.colourOf]
  · by_cases hc : c = st.current_player
    · subst hc
      rw [GameState.make_move_own st src dst hoc]
      have hb : st.pieceAt src ≠ ChessPiece.Blank := by
        intro hb
        simp only [GameState.pieceAt] at hb
        rw [hb] at hoc
        exact Option.noConfusion hoc
      refine ⟨by simp [GameState.pieceAt] at hoc ⊢; exact ⟨hb, hoc⟩, ?_, ?_⟩
      · simp only [GameState.pieceAt]
        constructor
        · intro h
          exact absurd h (by simp)
        · intro h
          exact absurd h hb
      · constructor
        · intro h
          exact absurd h (by simp)
        · rintro ⟨d, hd, hdne⟩
          simp only [GameState.pieceAt] at hd
          rw [hoc] at hd
          exact absurd (Option.some.inj hd).symm hdne
    · rw [GameState.make_move_wrong_turn st src dst c hoc hc]
      have hb : st.pieceAt src ≠ ChessPiece.Blank := by
        intro hb
        simp only [GameState.pieceAt] at hb
        rw [hb] at hoc
        exact Option.noConfusion hoc
      refine ⟨by simp [GameState.pieceAt, hoc, hc], ?_, ?_⟩
      · constructor
        · intro h
          have := Except.error.inj h
          exact absurd this (by decide)
        · intro h
          exact absurd h hb
      · constructor
        · intro _
          exact ⟨c, hoc, hc⟩
        · intro _
          rfl

/-- C2: when `make_move` returns an error, the state after the call is exactly
the state before it: the board agrees on every square and the player to move is
unchanged. -/
theorem make_move_error_leaves_state (st : GameState) (src dst : Square) (e : String)
    (h : (st.make_move src dst).1 = Except.error e) :
    (st.make_move src dst).2 = st := by
  rcases hoc : (st.board src.rowF src.colF).colourOf with _ | c
  · rw [GameState.make_move_blank st src dst (ChessPiece.colourOf_eq_none.mp hoc)]
  · by_cases hc : c = st.current_player
    · subst hc
      rw [GameState.make_move_own st src dst hoc] at h
      exact absurd h (by simp)
    · rw [GameState.make_move_wrong_turn st src dst c hoc hc]

/-- Witness for C2: from the initial position, moving from the empty square E5
is rejected and the state is returned unchanged. -/
theorem make_move_error_leaves_state_witness :
    (GameState.new.make_move Square.E5 Square.E4).1 =
        Except.error "No piece at the source square." ∧
      (GameState.new.make_move Square.E5 Square.E4).2 = GameState.new :=
  ⟨by decide, make_move_error_leaves_state GameState.new Square.E5 Square.E4
    "No piece at the source square." (by decide)⟩

/-- C3: every successful `make_move` toggles `current_player`: White before the
call means Black after it, and Black before means White after. -/
theorem make_move_toggles_player (st : GameState) (src dst : Square)
    (h : (st.make_move src dst).1 = Except.ok ()) :
    (st.current_player = Colour.White →
      (st.make_move src dst).2.current_player = Colour.Black) ∧
    (st.current_player = Colour.Black →
      (st.make_move src dst).2.current_player = Colour.White) := by
  rw [GameState.make_move_ok_state st src dst h]
  cases hc : st.current_player <;> simp [GameState.moveResult, hc]

/-- Witness for C3: the accepted opening move E2 to E4 hands the turn to
Black. -/
theorem make_move_toggles_player_witness :
    GameState.new.current_player = Colour.White ∧
      (GameState.new.make_move Square.E2 Square.E4).2.current_player = Colour.Black :=
  ⟨by decide,
    (make_move_toggles_player GameState.new Square.E2 Square.E4 (by decide)).1 (by decide)⟩

/-- C4: a successful `make_move` between two distinct squares puts the piece
that was on the source square onto the destination square, blanks the source
square, and leaves every other square exactly as it was. -/
theorem make_move_relocates (st : GameState) (src dst : Square)
    (hne : src ≠ dst) (h : (st.make_move src dst).1 = Except.ok ()) :
    (st.make_move src dst).2.pieceAt dst = st.pieceAt src ∧
    (st.make_move src dst).2.pieceAt src = ChessPiece.Blank ∧
    ∀ t : Square, t ≠ src → t ≠ dst →
      (st.make_move src dst).2.pieceAt t = st.pieceAt t := by
  rw [GameState.make_move_ok_state st src dst h]
  have hds : ¬ (dst.rowF = src.rowF ∧ dst.colF = src.colF) := by
    rintro ⟨hr, hc⟩
    exact hne (Square.eq_of_rowF_colF dst src hr hc).symm
  refine ⟨?_, ?_, ?_⟩
  · simp [GameState.pieceAt, GameState.moveResult, hds]
  · simp [GameState.pieceAt, GameState.moveResult]
  · intro t hts htd
    have h1 : ¬ (t.rowF = src.rowF ∧ t.colF = src.colF) := by
      rintro ⟨hr, hc⟩
      exact hts (Square.eq_of_rowF_colF t src hr hc)
    have h2 : ¬ (t.rowF = dst.rowF ∧ t.colF = dst.colF) := by
      rintro ⟨hr, hc⟩
      exact htd (Square.eq_of_rowF_colF t dst hr hc)
    simp [GameState.pieceAt, GameState.moveResult, h1, h2]

/-- Witness for C4: the accepted move E2 to E4 from the initial position moves
the white pawn to E4, blanks E2, and leaves the other 62 squares unchanged. -/
theorem make_move_relocates_witness :
    (GameState.new.make_move Square.E2 Square.E4).2.pieceAt Square.E4 =
        GameState.new.pieceAt Square.E2 ∧
      (GameState.new.make_move Square.E2 Square.E4).2.pieceAt Square.E2 =
        ChessPiece.Blank ∧
      ∀ t : Square, t ≠ Square.E2 → t ≠ Square.E4 →
        (GameState.new.make_move Square.E2 Square.E4).2.pieceAt t =
          GameState.new.pieceAt t :=
  make_move_relocates GameState.new Square.E2 Square.E4 (by decide) (by decide)

set_option maxRecDepth 8000 in
/-- C7: `to_row_col` always yields a pair with both components between 0 and 7,
the map is injective on the 64 squares, and every coordinate pair in that range
is hit, so the 64 squares map onto the 64 distinct pairs with no duplicates. -/
theorem to_row_col_bounds_injective :
    (∀ s : Square, (Square.to_row_col s).1 ≤ 7 ∧ (Square.to_row_col s).2 ≤ 7) ∧
    (∀ s t : Square, Square.to_row_col s = Square.to_row_col t → s = t) ∧
    (∀ r c : Fin 8, ∃ s : Square, Square.to_row_col s = (r.val, c.val)) := by
  decide

/-- Witness for C7: the injectivity conjunct applied at the concrete pair
E4, E4. -/
theorem to_row_col_bounds_injective_witness : Square.E4 = Square.E4 :=
  to_row_col_bounds_injective.2.1 Square.E4 Square.E4 (by decide)

/-- C9: a same-square move of a piece of the current player is accepted,
blanks that square (the piece disappears from the game), leaves every other
square unchanged, and toggles the player to move. -/
theorem make_move_same_square_destroys (st : GameState) (s : Square)
    (h : (st.board s.rowF s.colF).colourOf = some st.current_player) :
    (st.make_move s s).1 = Except.ok () ∧
    (st.make_move s s).2.pieceAt s = ChessPiece.Blank ∧
    (∀ t : Square, t ≠ s → (st.make_move s s).2.pieceAt t = st.pieceAt t) ∧
    (st.current_player = Colour.White →
      (st.make_move s s).2.current_player = Colour.Black) ∧
    (st.current_player = Colour.Black →
      (st.make_move s s).2.current_player = Colour.White) := by
  rw [GameState.make_move_own st s s h]
  refine ⟨rfl, ?_, ?_, ?_, ?_⟩
  · simp [GameState.pieceAt, GameState.moveResult]
  · intro t hts
    have h1 : ¬ (t.rowF = s.rowF ∧ t.colF = s.colF) := by
      rintro ⟨hr, hc⟩
      exact hts (Square.eq_of_rowF_colF t s hr hc)
    simp [GameState.pieceAt, GameState.moveResult, h1]
  · intro hc
    simp [GameState.moveResult, hc]
  · intro hc
    simp [GameState.moveResult, hc]

/-- Witness for C9: from the initial position the same-square move A1 to A1 is
accepted and deletes the white rook from A1. -/
theorem make_move_same_square_destroys_witness :
    (GameState.new.make_move Square.A1 Square.A1).1 = Except.ok () ∧
      (GameState.new.make_move Square.A1 Square.A1).2.pieceAt Square.A1 =
        ChessPiece.Blank :=
  ⟨(make_move_same_square_destroys GameState.new Square.A1 (by decide)).1,
    (make_move_same_square_destroys GameState.new Square.A1 (by decide)).2.1⟩

set_option maxRecDepth 8000 in
/-- Counterexample to C5: from the initial position (where E1 holds the white
king and E8 the black king) the single accepted move E1 to E8 produces a state
whose board holds no black king at all, so the one-king-per-colour invariant is
not preserved by successful moves. -/
theorem kings_invariant_counterexample :
    GameState.new.pieceAt Square.E1 = ChessPiece.King Colour.White ∧
    GameState.new.pieceAt Square.E8 = ChessPiece.King Colour.Black ∧
    (GameState.new.make_move Square.E1 Square.E8).1 = Except.ok () ∧
    ∀ t : Square,
      (GameState.new.make_move Square.E1 Square.E8).2.pieceAt t ≠
        ChessPiece.King Colour.Black := by
  decide

set_option maxRecDepth 8000 in
/-- C5 amended: the board of `GameState.new` contains exactly one white king
(on E1) and exactly one black king (on E8); the invariant holds in the initial
state but `make_move` does not preserve it, since an accepted move may capture
a king. -/
theorem initial_board_one_king_each :
    (GameState.new.pieceAt Square.E1 = ChessPiece.King Colour.White ∧
      ∀ t : Square,
        GameState.new.pieceAt t = ChessPiece.King Colour.White → t = Square.E1) ∧
    (GameState.new.pieceAt Square.E8 = ChessPiece.King Colour.Black ∧
      ∀ t : Square,
        GameState.new.pieceAt t = ChessPiece.King Colour.Black → t = Square.E8) := by
  decide

/-- Witness for the amended C5: the uniqueness conjunct applied at E1, which
does hold the white king. -/
theorem initial_board_one_king_each_witness : Square.E1 = Square.E1 :=
  initial_board_one_king_each.1.2 Square.E1 (by decide)

set_option maxRecDepth 8000 in
/-- Counterexample to C6: from the initial position the rook move A1 to A3 is
accepted even though the path is blocked by the white pawn on A2, so
`make_move` does not reject blocked-path (or any other geometric) illegality. -/
theorem blocked_path_move_accepted :
    GameState.new.pieceAt Square.A1 = ChessPiece.Rook Colour.White ∧
    GameState.new.pieceAt Square.A2 = ChessPiece.Pawn Colour.White ∧
    (GameState.new.make_move Square.A1 Square.A3).1 = Except.ok () := by
  decide

/-- C6 amended: `make_move` enforces no legality condition beyond turn order:
whenever the source square holds a piece of the current player the move is
accepted, whatever the destination (blocked paths, self-checks and arbitrary
relocations included). -/
theorem make_move_accepts_any_own_piece (st : GameState) (src dst : Square)
    (h : (st.board src.rowF src.colF).colourOf = some st.current_player) :
    (st.make_move src dst).1 = Except.ok () := by
  rw [GameState.make_move_own st src dst h]

/-- Witness for the amended C6: the geometrically impossible knight move B1 to
H5 is accepted from the initial position. -/
theorem make_move_accepts_any_own_piece_witness :
    (GameState.new.make_move Square.B1 Square.H5).1 = Except.ok () :=
  make_move_accepts_any_own_piece GameState.new Square.B1 Square.H5 (by decide)


/-- The 64 squares in the order their names are tested by `from_str`. -/
def squareList : List Square :=
  [
    .A1, .A2, .A3, .A4, .A5, .A6, .A7, .A8,
    .B1, .B2, .B3, .B4, .B5, .B6, .B7, .B8,
    .C1, .C2, .C3, .C4, .C5, .C6, .C7, .C8,
    .D1, .D2, .D3, .D4, .D5, .D6, .D7, .D8,
    .E1, .E2, .E3, .E4, .E5, .E6, .E7, .E8,
    .F1, .F2, .F3, .F4, .F5, .F6, .F7, .F8,
    .G1, .G2, .G3, .G4, .G5, .G6, .G7, .G8,
    .H1, .H2, .H3, .H4, .H5, .H6, .H7, .H8]

/-- A sequential name lookup: try each square of the list in order, returning
the first whose name equals `t`, else the error message. The conditional chain
of `from_str` is definitionally this lookup run on `squareList`. -/
def lookupChain (t msg : String) : List Square -> Except String Square
  | [] => Except.error msg
  | sq :: rest => if t = sq.name then Except.ok sq else lookupChain t msg rest

theorem lookupChain_ok_iff (t msg : String) (l : List Square)
    (hinj : ∀ a ∈ l, ∀ b ∈ l, Square.name a = Square.name b → a = b) :
    ∀ sq : Square, (lookupChain t msg l = Except.ok sq ↔ sq ∈ l ∧ t = Square.name sq) := by
  induction l with
  | nil =>
    intro sq
    simp [lookupChain]
  | cons a rest ih =>
    intro sq
    by_cases h : t = a.name
    · simp only [lookupChain, if_pos h]
      constructor
      · intro hok
        cases Except.ok.inj hok
        exact ⟨List.mem_cons_self a rest, h⟩
      · rintro ⟨hmem, hname⟩
        rcases List.mem_cons.mp hmem with rfl | hmem
        · rfl
        · have : a = sq :=
            hinj a (List.mem_cons_self a rest) sq (List.mem_cons_of_mem a hmem)
              (h.symm.trans hname)
          rw [this]
    · simp only [lookupChain, if_neg h]
      have ih2 := ih (fun x hx y hy => hinj x (List.mem_cons_of_mem a hx) y
        (List.mem_cons_of_mem a hy)) sq
      rw [ih2]
      constructor
      · rintro ⟨hmem, hname⟩
        exact ⟨List.mem_cons_of_mem a hmem, hname⟩
      · rintro ⟨hmem, hname⟩
        rcases List.mem_cons.mp hmem with rfl | hmem
        · exact absurd hname h
        · exact ⟨hmem, hname⟩

theorem lookupChain_err (t msg : String) (l : List Square)
    (h : ∀ sq ∈ l, t ≠ Square.name sq) :
    lookupChain t msg l = Except.error msg := by
  induction l with
  | nil => rfl
  | cons a rest ih =>
    simp only [lookupChain, if_neg (h a (List.mem_cons_self a rest))]
    exact ih fun sq hsq => h sq (List.mem_cons_of_mem a hsq)

set_option maxRecDepth 8000 in
theorem Square.name_injective :
    ∀ a b : Square, Square.name a = Square.name b → a = b := by decide

set_option maxRecDepth 8000 in
theorem Square.mem_squareList : ∀ sq : Square, sq ∈ squareList := by decide

set_option maxHeartbeats 1600000 in
theorem Square.from_str_eq_lookup (s : String) :
    Square.from_str s =
      lookupChain (rustUppercase s) ("Invalid square: " ++ s) squareList := rfl

theorem Square.from_str_ok_iff (s : String) :
    ∀ sq : Square, Square.from_str s = Except.ok sq ↔ rustUppercase s = Square.name sq := by
  intro sq
  rw [Square.from_str_eq_lookup,
    lookupChain_ok_iff _ _ _ (fun a _ b _ => Square.name_injective a b) sq]
  simp [Square.mem_squareList sq]

theorem Square.from_str_err (s : String)
    (h : ¬ ∃ sq : Square, rustUppercase s = Square.name sq) :
    Square.from_str s = Except.error ("Invalid square: " ++ s) := by
  rw [Square.from_str_eq_lookup]
  exact lookupChain_err _ _ _ fun sq _ heq => h ⟨sq, heq⟩

/-- C10: `from_str` succeeds exactly on the strings whose ASCII-uppercased form
is one of the 64 algebraic square names (so parsing is case-insensitive: the
result is determined by the uppercased input), the square returned is the one
bearing that name, and every other string is rejected with the invalid-square
message built from the original input. -/
theorem from_str_ok_exactly_square_names (s : String) :
    ((∃ sq : Square, Square.from_str s = Except.ok sq) ↔
      ∃ sq : Square, rustUppercase s = Square.name sq) ∧
    (∀ sq : Square, Square.from_str s = Except.ok sq ↔ rustUppercase s = Square.name sq) ∧
    ((¬ ∃ sq : Square, rustUppercase s = Square.name sq) →
      Square.from_str s = Except.error ("Invalid square: " ++ s)) :=
  ⟨exists_congr (Square.from_str_ok_iff s), Square.from_str_ok_iff s,
    Square.from_str_err s⟩

/-- Witness for C10: the lower-case input "e4" parses to E4 (same as "E4"
would), and "z9" is rejected with the invalid-square message. -/
theorem from_str_ok_exactly_square_names_witness :
    Square.from_str "e4" = Except.ok Square.E4 ∧
      Square.from_str "E4" = Except.ok Square.E4 ∧
      Square.from_str "z9" = Except.error "Invalid square: z9" :=
  ⟨((from_str_ok_exactly_square_names "e4").2.1 Square.E4).mpr (by decide),
    ((from_str_ok_exactly_square_names "E4").2.1 Square.E4).mpr (by decide),
    (from_str_ok_exactly_square_names "z9").2.2 (by decide)⟩

/-!
The remaining development models the rules engine of the specification. The
source contains no `undo`, no move history and none of the derived state the
spec describes (castling rights, en-passant target, halfmove clock), so the
move applier of spec section 4.3 and the `undo` operation of sections 6 to 8
are modelled from the spec text and verified against each other.
-/

/-- Modelled from the spec: the piece kind, one of the six chess piece types,
kept orthogonal to the colour as section 9 prescribes. -/
inductive PieceKind
  | Pawn
  | Knight
  | Bishop
  | Rook
  | Queen
  | King
  deriving DecidableEq, Repr, Fintype

/-- Modelled from the spec: a piece is a kind together with a colour. -/
structure EnginePiece where
  kind : PieceKind
  colour : Colour
  deriving DecidableEq, Repr, Fintype

/-- Modelled from the spec: a square is a rank and file coordinate, 0-7 each
axis (section 3); rank 0 is White\x27s back rank. -/
abbrev EngineSquare := Fin 8 × Fin 8

/-- Modelled from the spec: the board maps each square to an optional piece. -/
abbrev EngineBoard := EngineSquare -> Option EnginePiece

/-- Modelled from the spec: per-colour, per-side castling availability. -/
structure CastlingRights where
  whiteKingside : Bool
  whiteQueenside : Bool
  blackKingside : Bool
  blackQueenside : Bool
  deriving DecidableEq, Repr

/-- Modelled from the spec: a move carries from- and to-squares, an optional
promotion piece, and the capture, en-passant, castling and double-push flags
(section 3). `src` and `dst` stand for the from-square and the to-square. -/
structure EngineMove where
  src : EngineSquare
  dst : EngineSquare
  promotion : Option PieceKind
  isCapture : Bool
  isEnPassant : Bool
  castleKingside : Bool
  castleQueenside : Bool
  doublePawnPush : Bool
  deriving DecidableEq, Repr

/-- Modelled from the spec: a history entry stores the move plus enough state
to undo it: captured piece, prior rights, prior en-passant target, prior
halfmove clock (section 4.3). -/
structure HistoryEntry where
  move : EngineMove
  captured : Option EnginePiece
  priorRights : CastlingRights
  priorEnPassant : Option EngineSquare
  priorHalfmove : Nat
  deriving DecidableEq, Repr

/-- Modelled from the spec: the game state owns the board, side to move,
castling rights, en-passant target, halfmove clock, fullmove counter and the
ordered move history (section 3). -/
structure EngineState where
  board : EngineBoard
  sideToMove : Colour
  rights : CastlingRights
  enPassantTarget : Option EngineSquare
  halfmoveClock : Nat
  fullmoveCounter : Nat
  history : List HistoryEntry

/-- The opposite colour, used for the side-to-move toggle of section 4.3. -/
def Colour.other : Colour -> Colour
  | .White => .Black
  | .Black => .White

/-- Write one square of the board. -/
def setSq (b : EngineBoard) (s : EngineSquare) (v : Option EnginePiece) : EngineBoard :=
  fun q => if q = s then v else b q

/-- Modelled from the spec: the square of the pawn captured en passant, the
one actually occupied by it rather than the destination (section 4.3): the
rank the capturing pawn came from, the file it lands on. -/
def epCaptureSquare (m : EngineMove) : EngineSquare :=
  (m.src.1, m.dst.2)

/-- Modelled from the spec: the board mutation of the move applier (section
4.3): move the piece (replacing a pawn by the promotion piece at the
destination when one is specified), remove the en-passant victim from its
actual square, and move the corresponding rook on a castle. -/
def boardAfter (b : EngineBoard) (m : EngineMove) (p : EnginePiece) : EngineBoard :=
  let placed : EnginePiece :=
    match m.promotion with
    | some k => ⟨k, p.colour⟩
    | none => p
  let b1 := setSq (setSq b m.dst (some placed)) m.src none
  let b2 := if m.isEnPassant then setSq b1 (epCaptureSquare m) none else b1
  if m.castleKingside then
    setSq (setSq b2 (m.src.1, (5 : Fin 8)) (b2 (m.src.1, (7 : Fin 8))))
      (m.src.1, (7 : Fin 8)) none
  else if m.castleQueenside then
    setSq (setSq b2 (m.src.1, (3 : Fin 8)) (b2 (m.src.1, (0 : Fin 8))))
      (m.src.1, (0 : Fin 8)) none
  else b2

/-- Modelled from the spec: the castling-rights update of section 4.3 —
moving the king revokes both of that colour\x27s rights, and a rook moving
from, or a capture landing on, a rook home square revokes that right. -/
def rightsAfter (r : CastlingRights) (m : EngineMove) (p : EnginePiece) : CastlingRights :=
  let r1 :=
    if p.kind = PieceKind.King then
      match p.colour with
      | Colour.White => { r with whiteKingside := false, whiteQueenside := false }
      | Colour.Black => { r with blackKingside := false, blackQueenside := false }
    else r
  let touched : EngineSquare -> CastlingRights -> CastlingRights := fun s rr =>
    if s = ((0 : Fin 8), (0 : Fin 8)) then { rr with whiteQueenside := false }
    else if s = ((0 : Fin 8), (7 : Fin 8)) then { rr with whiteKingside := false }
    else if s = ((7 : Fin 8), (0 : Fin 8)) then { rr with blackQueenside := false }
    else if s = ((7 : Fin 8), (7 : Fin 8)) then { rr with blackKingside := false }
    else rr
  touched m.dst (touched m.src r1)

/-- Modelled from the spec: the en-passant target after a move — the skipped
square immediately after a double pawn push, cleared otherwise (section 4.3). -/
def epTargetAfter (m : EngineMove) : Option EngineSquare :=
  if m.doublePawnPush then
    some (⟨(m.src.1.val + m.dst.1.val) / 2, by omega⟩, m.src.2)
  else none

/-- Modelled from the spec: the move applier of section 4.3, for a move
already confirmed legal: mutate the board, update rights, set or clear the
en-passant target, reset or bump the halfmove clock, advance the fullmove
counter after Black\x27s move, toggle the side to move, and push the history
entry. (If the from-square is empty — impossible for a legal move — the state
is returned unchanged.) -/
def applyMove (st : EngineState) (m : EngineMove) : EngineState :=
  match st.board m.src with
  | none => st
  | some p =>
    let captured :=
      if m.isEnPassant then st.board (epCaptureSquare m) else st.board m.dst
    { board := boardAfter st.board m p
      sideToMove := st.sideToMove.other
      rights := rightsAfter st.rights m p
      enPassantTarget := epTargetAfter m
      halfmoveClock :=
        if p.kind = PieceKind.Pawn ∨ m.isCapture = true then 0
        else st.halfmoveClock + 1
      fullmoveCounter :=
        if st.sideToMove = Colour.Black then st.fullmoveCounter + 1
        else st.fullmoveCounter
      history := ⟨m, captured, st.rights, st.enPassantTarget, st.halfmoveClock⟩ :: st.history }

/-- Modelled from the spec: `UndoError::{NoHistory}` (section 7). -/
inductive UndoError
  | NoHistory
  deriving DecidableEq, Repr

/-- The board reconstruction performed by `undo` for one history entry: the
rook returns home on a castle, the mover (a pawn again, if the move promoted)
returns to its from-square, the destination is cleared, and the captured piece
recorded in the entry is restored on the square it actually occupied (the
en-passant victim square for an en-passant capture, the destination
otherwise). `mover` is the colour that made the move. -/
def boardBefore (b0 : EngineBoard) (e : HistoryEntry) (mover : Colour) : EngineBoard :=
  let m := e.move
  let movedPiece : EnginePiece :=
    match m.promotion with
    | some _ => ⟨PieceKind.Pawn, mover⟩
    | none =>
      match b0 m.dst with
      | some q => q
      | none => ⟨PieceKind.Pawn, mover⟩
  let b1 :=
    if m.castleKingside then
      setSq (setSq b0 (m.src.1, (7 : Fin 8)) (b0 (m.src.1, (5 : Fin 8))))
        (m.src.1, (5 : Fin 8)) none
    else if m.castleQueenside then
      setSq (setSq b0 (m.src.1, (0 : Fin 8)) (b0 (m.src.1, (3 : Fin 8))))
        (m.src.1, (3 : Fin 8)) none
    else b0
  let b2 := setSq (setSq b1 m.src (some movedPiece)) m.dst none
  if m.isEnPassant then setSq b2 (epCaptureSquare m) e.captured
  else setSq b2 m.dst e.captured

/-- Modelled from the spec: `undo` (sections 6 and 8) — with no history the
call fails with `NoHistory`; otherwise the most recent history entry is popped
and its move is reversed on the board, while rights, en-passant target and
halfmove clock are restored from the entry, the fullmove counter steps back
after an undone Black move, and the side to move returns to the mover. -/
def undo (st : EngineState) : Except UndoError EngineState :=
  match st.history with
  | [] => Except.error UndoError.NoHistory
  | e :: rest =>
    let mover := st.sideToMove.other
    Except.ok
      { board := boardBefore st.board e mover
        sideToMove := mover
        rights := e.priorRights
        enPassantTarget := e.priorEnPassant
        halfmoveClock := e.priorHalfmove
        fullmoveCounter :=
          if mover = Colour.Black then st.fullmoveCounter - 1
          else st.fullmoveCounter
        history := rest }

theorem setSq_same (b : EngineBoard) (s : EngineSquare) (v : Option EnginePiece) :
    setSq b s v s = v := by simp [setSq]

theorem setSq_other (b : EngineBoard) (s : EngineSquare) (v : Option EnginePiece)
    {q : EngineSquare} (h : q ≠ s) : setSq b s v q = b q := by simp [setSq, h]

theorem Colour.other_other (c : Colour) : c.other.other = c := by
  cases c <;> rfl

theorem pair_ne_of_snd {a : Fin 8} {x y : Fin 8} (h : x ≠ y) :
    ((a, x) : EngineSquare) ≠ (a, y) := by
  intro hc
  exact h (congrArg Prod.snd hc)

theorem boardBefore_boardAfter_plain (b : EngineBoard) (m : EngineMove) (p : EnginePiece)
    (r : CastlingRights) (epT : Option EngineSquare) (hm : Nat)
    (hp : b m.src = some p) (hne : m.src ≠ m.dst)
    (hpromo : ∀ k, m.promotion = some k → p.kind = PieceKind.Pawn)
    (hEP : m.isEnPassant = false) (hCK : m.castleKingside = false)
    (hCQ : m.castleQueenside = false) :
    boardBefore (boardAfter b m p) ⟨m, b m.dst, r, epT, hm⟩ p.colour = b := by
  obtain ⟨pk, pc⟩ := p
  have hds : m.dst ≠ m.src := Ne.symm hne
  funext q
  rcases hpr : m.promotion with _ | k
  · simp only [boardBefore, boardAfter, hEP, hCK, hCQ, hpr, Bool.false_eq_true,
      if_false, setSq]
    by_cases hqD : q = m.dst <;> by_cases hqS : q = m.src <;>
      simp_all [setSq]
  · have hkind : pk = PieceKind.Pawn := hpromo k hpr
    subst hkind
    simp only [boardBefore, boardAfter, hEP, hCK, hCQ, hpr, Bool.false_eq_true,
      if_false, setSq]
    by_cases hqD : q = m.dst <;> by_cases hqS : q = m.src <;>
      simp_all [setSq]

theorem boardBefore_boardAfter_ep (b : EngineBoard) (m : EngineMove) (p : EnginePiece)
    (r : CastlingRights) (epT : Option EngineSquare) (hm : Nat)
    (hp : b m.src = some p) (hne : m.src ≠ m.dst)
    (hEP : m.isEnPassant = true)
    (hdstN : b m.dst = none)
    (hES : epCaptureSquare m ≠ m.src) (hED : epCaptureSquare m ≠ m.dst)
    (hprN : m.promotion = none) (hCK : m.castleKingside = false)
    (hCQ : m.castleQueenside = false) :
    boardBefore (boardAfter b m p) ⟨m, b (epCaptureSquare m), r, epT, hm⟩ p.colour = b := by
  have hds : m.dst ≠ m.src := Ne.symm hne
  have hSE : m.src ≠ epCaptureSquare m := Ne.symm hES
  have hDE : m.dst ≠ epCaptureSquare m := Ne.symm hED
  funext q
  simp only [boardBefore, boardAfter, hEP, hCK, hCQ, hprN, Bool.false_eq_true,
    if_false, if_true, setSq]
  by_cases hqE : q = epCaptureSquare m <;> by_cases hqD : q = m.dst <;>
    by_cases hqS : q = m.src <;> simp_all [setSq]

theorem boardBefore_boardAfter_castleK (b : EngineBoard) (m : EngineMove) (p : EnginePiece)
    (r : CastlingRights) (epT : Option EngineSquare) (hm : Nat)
    (hp : b m.src = some p) (hne : m.src ≠ m.dst)
    (hCK : m.castleKingside = true)
    (hs2 : m.src.2 = (4 : Fin 8)) (hd : m.dst = (m.src.1, (6 : Fin 8)))
    (h5 : b (m.src.1, (5 : Fin 8)) = none)
    (hprN : m.promotion = none) (hEP : m.isEnPassant = false)
    (hCQ : m.castleQueenside = false) :
    boardBefore (boardAfter b m p) ⟨m, b m.dst, r, epT, hm⟩ p.colour = b := by
  have hds : m.dst ≠ m.src := Ne.symm hne
  have hS5 : m.src ≠ (m.src.1, (5 : Fin 8)) := by
    intro hc
    have h2 := congrArg Prod.snd hc
    rw [hs2] at h2
    simp at h2
  have hS7 : m.src ≠ (m.src.1, (7 : Fin 8)) := by
    intro hc
    have h2 := congrArg Prod.snd hc
    rw [hs2] at h2
    simp at h2
  have hD5 : m.dst ≠ (m.src.1, (5 : Fin 8)) := by
    rw [hd]
    exact pair_ne_of_snd (by decide)
  have hD7 : m.dst ≠ (m.src.1, (7 : Fin 8)) := by
    rw [hd]
    exact pair_ne_of_snd (by decide)
  have h57 : ((m.src.1, (5 : Fin 8)) : EngineSquare) ≠ (m.src.1, (7 : Fin 8)) :=
    pair_ne_of_snd (by decide)
  have h5S := Ne.symm hS5
  have h7S := Ne.symm hS7
  have h5D := Ne.symm hD5
  have h7D := Ne.symm hD7
  have h75 := Ne.symm h57
  funext q
  simp only [boardBefore, boardAfter, hEP, hCK, hCQ, hprN, Bool.false_eq_true,
    if_false, if_true, setSq]
  by_cases hq5 : q = (m.src.1, (5 : Fin 8)) <;> by_cases hq7 : q = (m.src.1, (7 : Fin 8)) <;>
    by_cases hqD : q = m.dst <;> by_cases hqS : q = m.src <;> simp_all [setSq]

theorem boardBefore_boardAfter_castleQ (b : EngineBoard) (m : EngineMove) (p : EnginePiece)
    (r : CastlingRights) (epT : Option EngineSquare) (hm : Nat)
    (hp : b m.src = some p) (hne : m.src ≠ m.dst)
    (hCQ : m.castleQueenside = true)
    (hs2 : m.src.2 = (4 : Fin 8)) (hd : m.dst = (m.src.1, (2 : Fin 8)))
    (h3 : b (m.src.1, (3 : Fin 8)) = none)
    (hprN : m.promotion = none) (hEP : m.isEnPassant = false)
    (hCK : m.castleKingside = false) :
    boardBefore (boardAfter b m p) ⟨m, b m.dst, r, epT, hm⟩ p.colour = b := by
  have hds : m.dst ≠ m.src := Ne.symm hne
  have hS3 : m.src ≠ (m.src.1, (3 : Fin 8)) := by
    intro hc
    have h2 := congrArg Prod.snd hc
    rw [hs2] at h2
    simp at h2
  have hS0 : m.src ≠ (m.src.1, (0 : Fin 8)) := by
    intro hc
    have h2 := congrArg Prod.snd hc
    rw [hs2] at h2
    simp at h2
  have hD3 : m.dst ≠ (m.src.1, (3 : Fin 8)) := by
    rw [hd]
    exact pair_ne_of_snd (by decide)
  have hD0 : m.dst ≠ (m.src.1, (0 : Fin 8)) := by
    rw [hd]
    exact pair_ne_of_snd (by decide)
  have h30 : ((m.src.1, (3 : Fin 8)) : EngineSquare) ≠ (m.src.1, (0 : Fin 8)) :=
    pair_ne_of_snd (by decide)
  have h3S := Ne.symm hS3
  have h0S := Ne.symm hS0
  have h3D := Ne.symm hD3
  have h0D := Ne.symm hD0
  have h03 := Ne.symm h30
  funext q
  simp only [boardBefore, boardAfter, hEP, hCK, hCQ, hprN, Bool.false_eq_true,
    if_false, if_true, setSq]
  by_cases hq3 : q = (m.src.1, (3 : Fin 8)) <;> by_cases hq0 : q = (m.src.1, (0 : Fin 8)) <;>
    by_cases hqD : q = m.dst <;> by_cases hqS : q = m.src <;> simp_all [setSq]

/-- Modelled from the spec: structural facts that section 4.1 guarantees for
every move it emits as legal, and which the move applier of section 4.3 may
therefore assume: the from-square holds a piece of the side to move (a pawn
when the move promotes), the from- and to-squares differ, an en-passant
capture lands on an empty square and takes a pawn from a third square, and a
castle is the king stepping from its home file with the rook crossing square
empty. -/
def MoveFits (st : EngineState) (m : EngineMove) : Prop :=
  (∃ p : EnginePiece, st.board m.src = some p ∧ p.colour = st.sideToMove ∧
    ∀ k, m.promotion = some k → p.kind = PieceKind.Pawn) ∧
  m.src ≠ m.dst ∧
  (m.isEnPassant = true →
    st.board m.dst = none ∧ epCaptureSquare m ≠ m.src ∧ epCaptureSquare m ≠ m.dst ∧
    m.promotion = none ∧ m.castleKingside = false ∧ m.castleQueenside = false) ∧
  (m.castleKingside = true →
    m.src.2 = (4 : Fin 8) ∧ m.dst = (m.src.1, (6 : Fin 8)) ∧
    st.board (m.src.1, (5 : Fin 8)) = none ∧
    m.promotion = none ∧ m.isEnPassant = false ∧ m.castleQueenside = false) ∧
  (m.castleQueenside = true →
    m.src.2 = (4 : Fin 8) ∧ m.dst = (m.src.1, (2 : Fin 8)) ∧
    st.board (m.src.1, (3 : Fin 8)) = none ∧
    m.promotion = none ∧ m.isEnPassant = false ∧ m.castleKingside = false)

theorem applyMove_eq (st : EngineState) (m : EngineMove) (p : EnginePiece)
    (hp : st.board m.src = some p) :
    applyMove st m =
      { board := boardAfter st.board m p
        sideToMove := st.sideToMove.other
        rights := rightsAfter st.rights m p
        enPassantTarget := epTargetAfter m
        halfmoveClock :=
          if p.kind = PieceKind.Pawn ∨ m.isCapture = true then 0
          else st.halfmoveClock + 1
        fullmoveCounter :=
          if st.sideToMove = Colour.Black then st.fullmoveCounter + 1
          else st.fullmoveCounter
        history :=
          ⟨m, if m.isEnPassant then st.board (epCaptureSquare m) else st.board m.dst,
            st.rights, st.enPassantTarget, st.halfmoveClock⟩ :: st.history } := by
  simp only [applyMove, hp]

theorem undo_cons (bd : EngineBoard) (side : Colour) (r : CastlingRights)
    (ept : Option EngineSquare) (half full : Nat) (e : HistoryEntry)
    (rest : List HistoryEntry) :
    undo ⟨bd, side, r, ept, half, full, e :: rest⟩ =
      Except.ok ⟨boardBefore bd e side.other, side.other, e.priorRights,
        e.priorEnPassant, e.priorHalfmove,
        if side.other = Colour.Black then full - 1 else full, rest⟩ := rfl

/-- C8: applying a legal move and then undoing it restores the state exactly —
board, castling rights, en-passant target and halfmove clock (and the side to
move, fullmove counter and history) all return to their pre-move values.
Modelled from the spec: neither `undo` nor any of this state exists in the
source; the operations are the ones of sections 4.3 and 6, and `MoveFits`
captures what section 4.1 guarantees about a move it declared legal. -/
theorem undo_applyMove (st : EngineState) (m : EngineMove) (hfit : MoveFits st m) :
    undo (applyMove st m) = Except.ok st := by
  obtain ⟨⟨p, hp, hcol, hpromo⟩, hne, hep, hck, hcq⟩ := hfit
  rw [applyMove_eq st m p hp, undo_cons]
  obtain ⟨bb, side, rights, ept, half, full, hist⟩ := st
  have hcol2 : p.colour = side := hcol
  subst hcol2
  simp only [Colour.other_other, Except.ok.injEq, EngineState.mk.injEq]
  refine ⟨?_, trivial, trivial, trivial, trivial, ?_, trivial⟩
  · cases hCK : m.castleKingside with
    | true =>
      obtain ⟨hs2, hd, h5, hprN, hEPf, hCQf⟩ := hck hCK
      simp only [hEPf, Bool.false_eq_true, if_false]
      exact boardBefore_boardAfter_castleK bb m p rights ept half hp hne hCK hs2 hd h5
        hprN hEPf hCQf
    | false =>
      cases hCQ : m.castleQueenside with
      | true =>
        obtain ⟨hs2, hd, h3, hprN, hEPf, hCKf⟩ := hcq hCQ
        simp only [hEPf, Bool.false_eq_true, if_false]
        exact boardBefore_boardAfter_castleQ bb m p rights ept half hp hne hCQ
          hs2 hd h3 hprN hEPf hCKf
      | false =>
        cases hEP : m.isEnPassant with
        | true =>
          obtain ⟨hdN, hES, hED, hprN, _, _⟩ := hep hEP
          simp only [hEP, if_true]
          exact boardBefore_boardAfter_ep bb m p rights ept half hp hne hEP hdN
            hES hED hprN hCK hCQ
        | false =>
          simp only [hEP, Bool.false_eq_true, if_false]
          exact boardBefore_boardAfter_plain bb m p rights ept half hp hne hpromo
            hEP hCK hCQ
  · cases hpc : p.colour <;> simp [hpc]

/-- Modelled from the spec: the piece kinds on a back rank of the standard
starting position, by file. -/
def backRankKind (f : Fin 8) : PieceKind :=
  match f.val with
  | 0 => PieceKind.Rook
  | 1 => PieceKind.Knight
  | 2 => PieceKind.Bishop
  | 3 => PieceKind.Queen
  | 4 => PieceKind.King
  | 5 => PieceKind.Bishop
  | 6 => PieceKind.Knight
  | _ => PieceKind.Rook

/-- Modelled from the spec: `new_game()` (section 6) — the standard starting
position, White to move, all castling rights available, no en-passant target,
clocks at their initial values, empty history. -/
def new_game : EngineState where
  board := fun q =>
    match q.1.val with
    | 0 => some ⟨backRankKind q.2, Colour.White⟩
    | 1 => some ⟨PieceKind.Pawn, Colour.White⟩
    | 6 => some ⟨PieceKind.Pawn, Colour.Black⟩
    | 7 => some ⟨backRankKind q.2, Colour.Black⟩
    | _ => none
  sideToMove := Colour.White
  rights := ⟨true, true, true, true⟩
  enPassantTarget := none
  halfmoveClock := 0
  fullmoveCounter := 1
  history := []

/-- The double pawn push e2-e4: rank 1 to rank 3 on file 4, double-push flag
set, nothing captured. -/
def pawnE2E4 : EngineMove :=
  ⟨((1 : Fin 8), (4 : Fin 8)), ((3 : Fin 8), (4 : Fin 8)),
    none, false, false, false, false, true⟩

/-- Witness for C8: the legal opening move e2-e4 applied to the starting
position and then undone yields the starting position again. -/
theorem undo_applyMove_witness :
    MoveFits new_game pawnE2E4 ∧
      undo (applyMove new_game pawnE2E4) = Except.ok new_game :=
  ⟨by unfold MoveFits; decide,
    undo_applyMove new_game pawnE2E4 (by unfold MoveFits; decide)⟩
